import Mathlib

/-!
Verification of the Abineo Analytics collector core (`src/hash.rs`,
`src/lib.rs`, `src/api.rs`) against its specification.

Shallow embedding conventions:
* machine integers are modelled as `Nat` (for `u64`) and `Int` (for
  `i64`/`i32`), with wrapping made explicit via `% 2 ^ 64`;
* `&[u8]` byte slices are `List Nat`; Rust's `str::as_bytes` is modelled
  by the code points of the string (`strBytes`), which coincides with
  UTF-8 for the ASCII data exercised here, and is applied uniformly on
  both the code side and the spec side;
* the two external lookup services (the build-time timezone table and
  the user-agent parser) are passed in as function parameters
  `tzTable : String → Option String` and
  `uaParse : String → String × String` (browser family, OS family);
* `url::Url` is modelled by its observable components: the optional host
  (either a domain name or an IP address), the path, and the decoded
  query pairs.  `Url.domain` follows the url crate: it returns the host
  only when the host is a domain name, and `none` when the URL has no
  host or the host is an IP address;
* construction timestamps (`Utc::now()`) are wall-clock effects outside
  the pure model; `Visit`/`Event` are modelled without their `time`
  field, all other fields verbatim;
* fallible functions return `Except Error _` / `Option _` as in the
  source.
-/

/-- `u64::MAX / PI`, the fixed odd multiplier of `hash.rs`. -/
def hashC : Nat := 587178100656400245

/-- 64-bit rotate left by 5: `u64::rotate_left(5)`, i.e.
`(s <<< 5) | (s >>> 59)` with the shifted-out bits wrapped. -/
def rotl5 (s : Nat) : Nat := ((s <<< 5) % 2 ^ 64) ||| (s >>> 59)

/-- The hasher state: a single 64-bit register (`hash.rs`, `struct Hasher`). -/
abbrev Hasher := Nat

/-- `Hasher::new` — the register starts at zero (`Default`). -/
def Hasher.new : Hasher := 0

/-- `Hasher::write`: `state = state.rotate_left(5).bitxor(chunk).wrapping_mul(C)`. -/
def Hasher.write (s chunk : Nat) : Hasher := ((rotl5 s) ^^^ chunk) * hashC % 2 ^ 64

/-- `u64::from_ne_bytes` on a little-endian build: the first byte is the
least significant. -/
def chunkOfBytes (bs : List Nat) : Nat := bs.foldr (fun b acc => b + 256 * acc) 0

/-- `Vec::resize(8, 0)` applied to a buffer of at most 8 bytes. -/
def padTo8 (bs : List Nat) : List Nat := bs ++ List.replicate (8 - bs.length) 0

/-- `Hasher::write_bytes`: while more than 8 bytes remain, write the
first 8 as one chunk; then zero-pad the final at-most-8 bytes to 8 and
write them as the last chunk. -/
def Hasher.write_bytes : Hasher → List Nat → Hasher
  | s, b0 :: b1 :: b2 :: b3 :: b4 :: b5 :: b6 :: b7 :: rest =>
    if rest.isEmpty then Hasher.write s (chunkOfBytes [b0, b1, b2, b3, b4, b5, b6, b7])
    else Hasher.write_bytes (Hasher.write s (chunkOfBytes [b0, b1, b2, b3, b4, b5, b6, b7])) rest
  | s, bs => Hasher.write s (chunkOfBytes (padTo8 bs))

/-- `Hasher::finalize` — returns the state. -/
def Hasher.finalize (s : Hasher) : Nat := s

/-- `Hasher::hash_bytes`: new hasher, one `write_bytes`, finalize. -/
def Hasher.hash_bytes (bs : List Nat) : Nat :=
  Hasher.finalize (Hasher.write_bytes Hasher.new bs)

/-- Model of `str::as_bytes` (code points; equals UTF-8 on ASCII data). -/
def strBytes (s : String) : List Nat := s.data.map Char.toNat

/-- ASCII lower-casing of one character (model of Rust lower-casing on
the ASCII domains exercised here). -/
def charLower (c : Char) : Char :=
  if 65 ≤ c.toNat ∧ c.toNat ≤ 90 then Char.ofNat (c.toNat + 32) else c

/-- Model of `str::to_lowercase`. -/
def strLower (s : String) : String := ⟨s.data.map charLower⟩

/-- `as u64` on an `i64`/`i32` value (two's-complement wrap into 64 bits). -/
def intToU64 (x : Int) : Nat := (x % (2 ^ 64 : Int)).toNat

/-- `as i64` on a `u64` value (two's-complement reinterpretation). -/
def u64ToI64 (n : Nat) : Int := if n < 2 ^ 63 then (n : Int) else (n : Int) - 2 ^ 64

/-- The host of a parsed `url::Url`: a domain name or an IP address. -/
inductive UrlHost where
  | domain (name : String)
  | ip (addr : String)
deriving DecidableEq

/-- Observable components of a parsed `url::Url`. -/
structure Url where
  host : Option UrlHost
  path : String
  query : List (String × String)
deriving DecidableEq

/-- `Url::domain()`: the host, only when it is a domain name (not an IP
address), per the url crate. -/
def Url.domain (u : Url) : Option String :=
  match u.host with
  | some (UrlHost.domain d) => some d
  | _ => none

/-- `enum Error` of `lib.rs`: `Missing(String)` and `ParseIntError`. -/
inductive Error where
  | Missing (field : String)
  | ParseIntError
deriving DecidableEq

/-- Opaque `serde_json::Value` payload (passed through untouched). -/
structure Value where
  raw : String
deriving DecidableEq

/-- `api::PubVisitor` (screen is a pair of `i32`). -/
structure PubVisitor where
  tz : String
  lang : String
  screen : Int × Int
deriving DecidableEq

/-- `api::PubPage`. -/
structure PubPage where
  url : Url
  referrer : Option Url
deriving DecidableEq

/-- `api::PubVisit`. -/
structure PubVisit where
  session : String
  visitor : PubVisitor
  page : PubPage
deriving DecidableEq

/-- `api::PubExit`. -/
structure PubExit where
  session : String
  visitor : PubVisitor
  page : PubPage
  dur : Int
  dist : Float

/-- `api::PubEvent`. -/
structure PubEvent where
  session : String
  visitor : PubVisitor
  page : PubPage
  name : String
  data : Value
deriving DecidableEq

/-- `struct Visitor` of `lib.rs`. -/
structure Visitor where
  id : Int
  project : Int
  region : Option String
  timezone : String
  language : String
  browser : Option String
  platform : Option String
  width : Int
  height : Int
deriving DecidableEq

/-- `Visitor::new`.  The globals `TIMEZONES` and `UA_PARSER` are passed
in as the resolver parameters `tzTable` and `uaParse` (the latter
returning the browser family and the OS family of the user agent). -/
def Visitor.new (tzTable : String → Option String) (uaParse : String → String × String)
    (project_id : Int) (visitor : PubVisitor) (user_agent : String) : Visitor :=
  let region := tzTable visitor.tz
  let ua := uaParse user_agent
  let browser := if ua.1 = "" then none else some ua.1
  let platform := if ua.2 = "" then none else some ua.2
  let s1 := Hasher.write Hasher.new (intToU64 project_id)
  let s2 := match region with
    | some r => Hasher.write_bytes s1 (strBytes r)
    | none => s1
  let s3 := Hasher.write_bytes s2 (strBytes visitor.tz)
  let s4 := Hasher.write_bytes s3 (strBytes visitor.lang)
  let s5 := match browser with
    | some b => Hasher.write_bytes s4 (strBytes b)
    | none => s4
  let s6 := match platform with
    | some p => Hasher.write_bytes s5 (strBytes p)
    | none => s5
  let s7 := Hasher.write s6 (intToU64 visitor.screen.1)
  let s8 := Hasher.write s7 (intToU64 visitor.screen.2)
  { id := u64ToI64 (Hasher.finalize s8)
    project := project_id
    region := region
    timezone := visitor.tz
    language := visitor.lang
    browser := browser
    platform := platform
    width := visitor.screen.1
    height := visitor.screen.2 }

/-- `struct Page` of `lib.rs`. -/
structure Page where
  id : Int
  project : Int
  domain : String
  path : String
deriving DecidableEq

/-- `Page::new`: error `Missing "domain"` when `url.domain()` is `None`,
otherwise hash project id, domain bytes, path bytes, in that order. -/
def Page.new (project_id : Int) (url : Url) : Except Error Page :=
  match url.domain with
  | none => Except.error (Error.Missing "domain")
  | some d =>
    let s1 := Hasher.write Hasher.new (intToU64 project_id)
    let s2 := Hasher.write_bytes s1 (strBytes d)
    let s3 := Hasher.write_bytes s2 (strBytes url.path)
    Except.ok
      { id := u64ToI64 (Hasher.finalize s3)
        project := project_id
        domain := d
        path := url.path }

/-- `struct UtmParam` of `lib.rs`. -/
structure UtmParam where
  id : Int
  project : Int
  campaign : Option String
  content : Option String
  medium : Option String
  source : Option String
  term : Option String
deriving DecidableEq

/-- One iteration of the `UtmParam::new` loop over `url.query_pairs()`:
assign the matching field (case-sensitive key match) and raise the
`found_any` flag; unrecognized keys leave the accumulator unchanged. -/
def utmFold (acc : UtmParam × Bool) (kv : String × String) : UtmParam × Bool :=
  if kv.1 = "campaign" then ({ acc.1 with campaign := some kv.2 }, true)
  else if kv.1 = "content" then ({ acc.1 with content := some kv.2 }, true)
  else if kv.1 = "medium" then ({ acc.1 with medium := some kv.2 }, true)
  else if kv.1 = "source" then ({ acc.1 with source := some kv.2 }, true)
  else if kv.1 = "term" then ({ acc.1 with term := some kv.2 }, true)
  else acc

/-- The `if let Some(field) { hasher.write_bytes(..) }` blocks of
`lib.rs`: write the bytes only when the field is present. -/
def writeOpt (s : Hasher) : Option String → Hasher
  | some t => Hasher.write_bytes s (strBytes t)
  | none => s

/-- `UtmParam::new`: scan the query pairs, keep the last value of each of
the five recognized keys, and return `none` unless at least one was
found; the identity hashes project id then the present fields in fixed
order. -/
def UtmParam.new (project_id : Int) (url : Url) : Option UtmParam :=
  let init : UtmParam :=
    { id := 0, project := project_id, campaign := none, content := none
      medium := none, source := none, term := none }
  let r := url.query.foldl utmFold (init, false)
  if r.2 then
    let s1 := Hasher.write Hasher.new (intToU64 project_id)
    let s2 := writeOpt s1 r.1.campaign
    let s3 := writeOpt s2 r.1.content
    let s4 := writeOpt s3 r.1.medium
    let s5 := writeOpt s4 r.1.source
    let s6 := writeOpt s5 r.1.term
    some { r.1 with id := u64ToI64 (Hasher.finalize s6) }
  else none

/-- `struct Referrer` of `lib.rs`. -/
structure Referrer where
  id : Int
  project : Int
  domain : String
deriving DecidableEq

/-- `Referrer::new`: `none` when there is no referrer URL, it has no
domain, or its lower-cased domain equals the lower-cased page host;
otherwise the identity hashes project id then the lower-cased domain. -/
def Referrer.new (project_id : Int) (referrer : Option Url) (host : String) : Option Referrer :=
  match referrer with
  | none => none
  | some r =>
    match r.domain with
    | none => none
    | some d =>
      let dl := strLower d
      if dl = strLower host then none
      else
        let s1 := Hasher.write Hasher.new (intToU64 project_id)
        let s2 := Hasher.write_bytes s1 (strBytes dl)
        some { id := u64ToI64 (Hasher.finalize s2), project := project_id, domain := dl }

/-- `struct Visit` of `lib.rs` (without the wall-clock `time` field). -/
structure Visit where
  project : Int
  session : Int
  visitor : Visitor
  page : Page
  utm_param : Option UtmParam
  referrer : Option Referrer
  duration : Option Int
  distance : Option Float

/-- `Visit::new` (duration and distance default to `None`). -/
def Visit.new (project_id session : Int) (visitor : Visitor) (page : Page)
    (utm_param : Option UtmParam) (referrer : Option Referrer) : Visit :=
  { project := project_id, session := session, visitor := visitor, page := page
    utm_param := utm_param, referrer := referrer, duration := none, distance := none }

/-- `struct Event` of `lib.rs` (without the wall-clock `time` field).
It has no UTM or referrer fields. -/
structure Event where
  project : Int
  session : Int
  visitor : Visitor
  page : Page
  name : String
  data : Value
deriving DecidableEq

/-- `Event::new`. -/
def Event.new (project_id session : Int) (visitor : Visitor) (page : Page)
    (name : String) (data : Value) : Event :=
  { project := project_id, session := session, visitor := visitor, page := page
    name := name, data := data }

/-- Value of a digit run, failing on any non-digit. -/
def digitsVal (cs : List Char) : Option Nat :=
  cs.foldl
    (fun acc c =>
      match acc with
      | none => none
      | some n => if c.isDigit then some (n * 10 + (c.toNat - 48)) else none)
    (some 0)

/-- Model of `str::parse::<i64>`: optional leading sign, at least one
digit, all characters digits, and the value within the `i64` range. -/
def parseI64 (s : String) : Option Int :=
  let cs := s.data
  let signed : Bool × List Char :=
    match cs with
    | '+' :: rest => (false, rest)
    | '-' :: rest => (true, rest)
    | _ => (false, cs)
  if signed.2.isEmpty then none
  else
    match digitsVal signed.2 with
    | none => none
    | some n =>
      if signed.1 then
        if (n : Int) ≤ 2 ^ 63 then some (-(n : Int)) else none
      else if (n : Int) < 2 ^ 63 then some (n : Int) else none

/-- `api::handle_visit`: parse the session, build the four entities,
assemble a `Visit`.  A session parse failure or a missing page domain
aborts the request. -/
def handle_visit (tzTable : String → Option String) (uaParse : String → String × String)
    (project_id : Int) (body : PubVisit) (user_agent : String) : Except Error Visit :=
  match parseI64 body.session with
  | none => Except.error Error.ParseIntError
  | some session =>
    let visitor := Visitor.new tzTable uaParse project_id body.visitor user_agent
    match Page.new project_id body.page.url with
    | Except.error e => Except.error e
    | Except.ok page =>
      let utm_param := UtmParam.new project_id body.page.url
      let referrer := Referrer.new project_id body.page.referrer page.domain
      Except.ok (Visit.new project_id session visitor page utm_param referrer)

/-- `api::handle_exit`: as `handle_visit`, then merge duration and
distance into the `Visit`. -/
def handle_exit (tzTable : String → Option String) (uaParse : String → String × String)
    (project_id : Int) (body : PubExit) (user_agent : String) : Except Error Visit :=
  match parseI64 body.session with
  | none => Except.error Error.ParseIntError
  | some session =>
    let visitor := Visitor.new tzTable uaParse project_id body.visitor user_agent
    match Page.new project_id body.page.url with
    | Except.error e => Except.error e
    | Except.ok page =>
      let utm_param := UtmParam.new project_id body.page.url
      let referrer := Referrer.new project_id body.page.referrer page.domain
      let visit := Visit.new project_id session visitor page utm_param referrer
      Except.ok { visit with duration := some body.dur, distance := some body.dist }

/-- `api::handle_event`: parse the session, build visitor and page only,
assemble an `Event` (no UTM, no referrer). -/
def handle_event (tzTable : String → Option String) (uaParse : String → String × String)
    (project_id : Int) (body : PubEvent) (user_agent : String) : Except Error Event :=
  match parseI64 body.session with
  | none => Except.error Error.ParseIntError
  | some session =>
    let visitor := Visitor.new tzTable uaParse project_id body.visitor user_agent
    match Page.new project_id body.page.url with
    | Except.error e => Except.error e
    | Except.ok page =>
      Except.ok (Event.new project_id session visitor page body.name body.data)

/-!  Specification-side definitions, written from the spec's words, to be
compared with the code-side definitions above. -/

/-- Spec-side chunking of a byte sequence: consecutive 8-byte chunks,
the final partial chunk (including empty input) zero-padded to 8 bytes,
`max 1 (ceil (len / 8))` chunks in total. -/
def specChunks (bs : List Nat) : List Nat :=
  (List.range (max 1 ((bs.length + 7) / 8))).map
    (fun i => chunkOfBytes (padTo8 ((bs.drop (8 * i)).take 8)))

/-- Spec-side hash of an ordered chunk stream: start from the zero seed
and feed every chunk in order. -/
def hashChunks (chunks : List Nat) : Nat :=
  Hasher.finalize (chunks.foldl Hasher.write Hasher.new)

/-- Chunk contribution of an optional field: absent fields contribute no
chunk at all. -/
def optChunks : Option String → List Nat
  | some t => specChunks (strBytes t)
  | none => []

/-- Chunk contribution of a user-agent family: only if non-empty. -/
def famChunks (fam : String) : List Nat :=
  if fam = "" then [] else specChunks (strBytes fam)

/-- Spec-side i32-to-u64 widening: negative values wrap modulo `2 ^ 64`. -/
def specWiden (x : Int) : Nat := if 0 ≤ x then x.toNat else 2 ^ 64 - (-x).toNat

/-- Spec-side chunk stream of a Visitor identity: project id as u64,
region bytes only if present, timezone bytes, language bytes, browser
bytes only if the browser family is non-empty, platform bytes only if
the OS family is non-empty, width as u64, height as u64. -/
def visitorChunks (pid : Int) (region : Option String) (tz lang : String)
    (browserFam platformFam : String) (w h : Int) : List Nat :=
  [intToU64 pid] ++ optChunks region ++ specChunks (strBytes tz) ++
    specChunks (strBytes lang) ++ famChunks browserFam ++ famChunks platformFam ++
    [specWiden w, specWiden h]

/-- The five recognized UTM keys (case-sensitive). -/
def utmKeys : List String := ["campaign", "content", "medium", "source", "term"]

/-- Spec-side "last occurrence wins": the value of the last query pair
whose key equals `k`, regardless of where it appeared. -/
def lastUtmVal (k : String) (ps : List (String × String)) : Option String :=
  ((ps.filter (fun kv => kv.1 = k)).map Prod.snd).getLast?

/-!  Concrete fixtures used by the witness theorems. -/

/-- Timezone resolver fixture (`Europe/Zurich ↦ CH`). -/
def tzT0 : String → Option String :=
  fun t => if t = "Europe/Zurich" then some "CH" else none

/-- User-agent resolver fixture: every agent is Chrome on Linux. -/
def uaP0 : String → String × String := fun _ => ("Chrome", "Linux")

/-- User-agent resolver fixture: unknown browser and platform. -/
def uaPNone : String → String × String := fun _ => ("", "")

/-- A visitor report with a negative width, to exercise the wrap. -/
def pv0 : PubVisitor := { tz := "Europe/Zurich", lang := "en", screen := (-1920, 1080) }

/-- A page URL with a domain host, a path and UTM query pairs
(`campaign` appearing twice, an unrecognized key once). -/
def utmUrl0 : Url :=
  { host := some (UrlHost.domain "shop.example")
    path := "/p"
    query := [("campaign", "x"), ("foo", "z"), ("campaign", "spring")] }

/-- A page URL with a domain host and no query. -/
def domUrl0 : Url :=
  { host := some (UrlHost.domain "shop.example"), path := "/p", query := [] }

/-- A URL whose host is an IP address: it has a host component but no
domain. -/
def ipUrl0 : Url := { host := some (UrlHost.ip "127.0.0.1"), path := "/", query := [] }

/-- A URL with no host component at all. -/
def noHostUrl0 : Url := { host := none, path := "p", query := [] }

/-- A referrer URL on another domain. -/
def refOther0 : Url := { host := some (UrlHost.domain "R.Example"), path := "/", query := [] }

/-- A referrer URL on the page's own domain, in different case. -/
def refSelf0 : Url := { host := some (UrlHost.domain "EXAMPLE.com"), path := "/other", query := [] }

/-- A visit body with a malformed session identifier. -/
def pvBad0 : PubVisit :=
  { session := "abc", visitor := pv0
    page := { url := domUrl0, referrer := none } }

/-- An exit body with a malformed session identifier. -/
def pxBad0 : PubExit :=
  { session := "abc", visitor := pv0
    page := { url := domUrl0, referrer := none }, dur := 3, dist := 0.5 }

/-- An event body with a malformed session identifier. -/
def peBad0 : PubEvent :=
  { session := "abc", visitor := pv0
    page := { url := domUrl0, referrer := none }, name := "click", data := ⟨"payload"⟩ }

/-- An event body with a referrer and UTM query pairs. -/
def peA0 : PubEvent :=
  { session := "42", visitor := pv0
    page := { url := utmUrl0, referrer := some refOther0 }
    name := "click", data := ⟨"payload"⟩ }

/-- The same event body with the referrer removed and the query cleared. -/
def peB0 : PubEvent :=
  { session := "42", visitor := pv0
    page := { url := domUrl0, referrer := none }
    name := "click", data := ⟨"payload"⟩ }

/-- The UTM entity produced from `utmUrl0` with project 1 (last
`campaign` occurrence wins). -/
def utmU0 : UtmParam :=
  { id := u64ToI64 (hashChunks ([intToU64 1] ++ optChunks (some "spring") ++ optChunks none ++
      optChunks none ++ optChunks none ++ optChunks none))
    project := 1, campaign := some "spring", content := none, medium := none
    source := none, term := none }

/-- The Referrer entity produced from `refOther0` with project 1. -/
def refR0 : Referrer :=
  { id := u64ToI64 (hashChunks ([intToU64 1] ++ specChunks (strBytes "r.example")))
    project := 1, domain := "r.example" }

/-!  Helper lemmas about the hasher. -/

/-- Or-ing disjoint bit ranges is addition: the low `k` bits come from
`b`, the rest from `2 ^ k * a`. -/
theorem two_pow_mul_lor (a b k : Nat) (hb : b < 2 ^ k) : (2 ^ k * a) ||| b = 2 ^ k * a + b := by
  apply Nat.eq_of_testBit_eq
  intro j
  rw [Nat.testBit_or, Nat.testBit_mul_pow_two_add a hb j]
  by_cases hj : j < k
  · have h1 : (2 ^ k * a).testBit j = false := by
      have := Nat.testBit_mul_pow_two_add a (Nat.pos_pow_of_pos k (by norm_num) : 0 < 2 ^ k) j
      simpa [hj, Nat.testBit_zero] using this
    simp [hj, h1]
  · have h2 : b.testBit j = false :=
      Nat.testBit_lt_two_pow (lt_of_lt_of_le hb (Nat.pow_le_pow_right (by norm_num) (by omega)))
    have h3 : (2 ^ k * a).testBit j = a.testBit (j - k) := by
      have := Nat.testBit_mul_pow_two_add a (Nat.pos_pow_of_pos k (by norm_num) : 0 < 2 ^ k) j
      simpa [hj] using this
    simp [hj, h2, h3]

/-- For a 64-bit state, the shift-or implementation of
`rotate_left(5)` equals its arithmetic description: the top 5 bits move
to the bottom. -/
theorem rotl5_eq (s : Nat) (hs : s < 2 ^ 64) : rotl5 s = 32 * (s % 2 ^ 59) + s / 2 ^ 59 := by
  have hdiv : s / 2 ^ 59 < 2 ^ 5 := by
    rw [Nat.div_lt_iff_lt_mul (by norm_num : 0 < 2 ^ 59)]
    calc s < 2 ^ 64 := hs
    _ ≤ 2 ^ 5 * 2 ^ 59 := by norm_num
  have hmod : (s <<< 5) % 2 ^ 64 = 2 ^ 5 * (s % 2 ^ 59) := by
    rw [Nat.shiftLeft_eq, Nat.mul_comm s (2 ^ 5)]
    have : (2 ^ 64 : Nat) = 2 ^ 5 * 2 ^ 59 := by norm_num
    rw [this, Nat.mul_mod_mul_left]
  rw [rotl5, hmod, Nat.shiftRight_eq_div_pow,
    two_pow_mul_lor (s % 2 ^ 59) (s / 2 ^ 59) 5 hdiv]
  norm_num

/-- The state after any `write` is a 64-bit value. -/
theorem write_lt (s c : Nat) : Hasher.write s c < 2 ^ 64 := by
  have : 0 < (2 : Nat) ^ 64 := by norm_num
  exact Nat.mod_lt _ this

/-- Unfolding `write_bytes` on a final buffer of at most 8 bytes. -/
theorem write_bytes_le8 (s : Hasher) (bs : List Nat) (h : bs.length ≤ 8) :
    Hasher.write_bytes s bs = Hasher.write s (chunkOfBytes (padTo8 bs)) := by
  rcases bs with _ | ⟨b0, _ | ⟨b1, _ | ⟨b2, _ | ⟨b3, _ | ⟨b4, _ | ⟨b5, _ | ⟨b6, _ | ⟨b7, rest⟩⟩⟩⟩⟩⟩⟩⟩
  · rfl
  · rfl
  · rfl
  · rfl
  · rfl
  · rfl
  · rfl
  · rfl
  · have hr : rest = [] := by
      apply List.eq_nil_of_length_eq_zero
      simp only [List.length_cons] at h
      omega
    subst hr
    simp [Hasher.write_bytes, padTo8]

/-- Unfolding `write_bytes` when more than 8 bytes remain: one loop
iteration writing the first 8 bytes. -/
theorem write_bytes_cons9 (s : Hasher) (b0 b1 b2 b3 b4 b5 b6 b7 r0 : Nat) (rest : List Nat) :
    Hasher.write_bytes s (b0 :: b1 :: b2 :: b3 :: b4 :: b5 :: b6 :: b7 :: r0 :: rest) =
      Hasher.write_bytes (Hasher.write s (chunkOfBytes [b0, b1, b2, b3, b4, b5, b6, b7]))
        (r0 :: rest) := by
  simp [Hasher.write_bytes]

/-- `specChunks` on a buffer of at most 8 bytes: a single padded chunk. -/
theorem specChunks_le8 (bs : List Nat) (h : bs.length ≤ 8) :
    specChunks bs = [chunkOfBytes (padTo8 bs)] := by
  have hcount : max 1 ((bs.length + 7) / 8) = 1 := by omega
  have hrange : List.range 1 = [0] := rfl
  rw [specChunks, hcount, hrange]
  simp [List.take_of_length_le h]

/-- `specChunks` peels off one full 8-byte chunk in front of a non-empty
remainder. -/
theorem specChunks_cons9 (b0 b1 b2 b3 b4 b5 b6 b7 r0 : Nat) (rest : List Nat) :
    specChunks (b0 :: b1 :: b2 :: b3 :: b4 :: b5 :: b6 :: b7 :: r0 :: rest) =
      chunkOfBytes [b0, b1, b2, b3, b4, b5, b6, b7] :: specChunks (r0 :: rest) := by
  have hlen : (b0 :: b1 :: b2 :: b3 :: b4 :: b5 :: b6 :: b7 :: r0 :: rest).length =
      8 + (r0 :: rest).length := by simp; omega
  have hcount : max 1 (((b0 :: b1 :: b2 :: b3 :: b4 :: b5 :: b6 :: b7 :: r0 :: rest).length + 7) / 8) =
      max 1 (((r0 :: rest).length + 7) / 8) + 1 := by
    rw [hlen]
    have : 1 ≤ (r0 :: rest).length := by simp
    omega
  rw [specChunks, hcount, List.range_succ_eq_map, List.map_cons, List.map_map]
  congr 1

/-- `write_bytes` feeds exactly the `specChunks` of its input, in order. -/
theorem write_bytes_eq (s : Hasher) (bs : List Nat) :
    Hasher.write_bytes s bs = (specChunks bs).foldl Hasher.write s := by
  induction s, bs using Hasher.write_bytes.induct with
  | case1 s b0 b1 b2 b3 b4 b5 b6 b7 rest hempty =>
    have hr : rest = [] := List.isEmpty_iff.mp hempty
    subst hr
    rw [specChunks_le8 _ (by simp), write_bytes_le8 _ _ (by simp)]
    simp [padTo8]
  | case2 s b0 b1 b2 b3 b4 b5 b6 b7 rest hne ih =>
    rcases rest with _ | ⟨r0, rest⟩
    · simp at hne
    · rw [write_bytes_cons9, specChunks_cons9, List.foldl_cons, ih]
  | case3 s bs hshape =>
    have hlen : bs.length ≤ 8 := by
      rcases bs with _ | ⟨b0, _ | ⟨b1, _ | ⟨b2, _ | ⟨b3, _ | ⟨b4, _ | ⟨b5, _ | ⟨b6, _ | ⟨b7, _ | ⟨r0, rest⟩⟩⟩⟩⟩⟩⟩⟩⟩
      · simp
      · simp
      · simp
      · simp
      · simp
      · simp
      · simp
      · simp
      · simp
      · exact (hshape b0 b1 b2 b3 b4 b5 b6 b7 (r0 :: rest) rfl).elim
    rw [write_bytes_le8 _ _ hlen, specChunks_le8 _ hlen]
    rfl

/-- The number of chunks fed by `write_bytes`. -/
theorem specChunks_length (bs : List Nat) :
    (specChunks bs).length = max 1 ((bs.length + 7) / 8) := by
  simp [specChunks]

/-- A conditional field write feeds exactly the field's optional chunk
contribution. -/
theorem writeOpt_eq (s : Hasher) (o : Option String) :
    writeOpt s o = (optChunks o).foldl Hasher.write s := by
  cases o <;> simp [writeOpt, optChunks, write_bytes_eq]

/-- On any value in range, the two's-complement `as u64` cast agrees with
the spec's description of the widening (negatives wrap modulo `2 ^ 64`). -/
theorem intToU64_eq_specWiden (x : Int) (hlo : -(2 ^ 64) < x) (hhi : x < 2 ^ 64) :
    intToU64 x = specWiden x := by
  unfold intToU64 specWiden
  split <;> omega

/-- C6: for every 64-bit state `s` and chunk `c`, `Hasher::write` updates
the state to `(rotate-left(s, 5) XOR c) * C mod 2^64`; the multiplier `C`
is odd and the accumulator is seeded to zero. -/
theorem hasher_write_spec (s chunk : Nat) (hs : s < 2 ^ 64) :
    Hasher.write s chunk = ((32 * (s % 2 ^ 59) + s / 2 ^ 59) ^^^ chunk) * hashC % 2 ^ 64 ∧
    hashC % 2 = 1 ∧ Hasher.new = 0 ∧ Hasher.write s chunk < 2 ^ 64 := by
  refine ⟨?_, by norm_num [hashC], rfl, write_lt s chunk⟩
  rw [Hasher.write, rotl5_eq s hs]

/-- Witness for C6 at `s = 3`, `c = 5`. -/
theorem hasher_write_spec_witness :
    (3 : Nat) < 2 ^ 64 ∧
      (Hasher.write 3 5 = ((32 * (3 % 2 ^ 59) + 3 / 2 ^ 59) ^^^ 5) * hashC % 2 ^ 64 ∧
        hashC % 2 = 1 ∧ Hasher.new = 0 ∧ Hasher.write 3 5 < 2 ^ 64) :=
  ⟨by norm_num, hasher_write_spec 3 5 (by norm_num)⟩

/-- C7: `write_bytes` feeds its input to `write` as consecutive 8-byte
little-endian chunks, the final partial chunk zero-padded to 8 bytes,
performing exactly `max 1 (ceil (len / 8))` write calls; the empty byte
sequence produces exactly one write call with chunk 0. -/
theorem write_bytes_chunk_spec (s : Hasher) (bs : List Nat) :
    Hasher.write_bytes s bs = (specChunks bs).foldl Hasher.write s ∧
    (specChunks bs).length = max 1 ((bs.length + 7) / 8) ∧
    Hasher.write_bytes s [] = Hasher.write s 0 :=
  ⟨write_bytes_eq s bs, specChunks_length bs, rfl⟩

/-- C8: the hash is order-sensitive and separates the spec's concrete
cases: "alice" then "bob" differs from "bob" then "alice"; an extra zero
chunk after "same input" changes the value; and `hash_bytes` separates
"same input" from "some input". -/
theorem hash_order_cases :
    Hasher.finalize (Hasher.write_bytes (Hasher.write_bytes Hasher.new (strBytes "alice"))
        (strBytes "bob")) ≠
      Hasher.finalize (Hasher.write_bytes (Hasher.write_bytes Hasher.new (strBytes "bob"))
        (strBytes "alice")) ∧
    Hasher.finalize (Hasher.write (Hasher.write_bytes Hasher.new (strBytes "same input")) 0) ≠
      Hasher.finalize (Hasher.write_bytes Hasher.new (strBytes "same input")) ∧
    Hasher.hash_bytes (strBytes "same input") ≠ Hasher.hash_bytes (strBytes "some input") :=
  ⟨by decide, by decide, by decide⟩

/-- C9: hashing the empty byte sequence gives 0, the same value as
finalizing a fresh hasher with no writes, because `write 0` maps the
zero state to the zero state; so at the initial state a present-but-empty
field is indistinguishable from an absent one. -/
theorem hash_empty_spec :
    Hasher.hash_bytes (strBytes "") = 0 ∧
    Hasher.finalize Hasher.new = 0 ∧
    Hasher.write Hasher.new 0 = Hasher.new ∧
    Hasher.write_bytes Hasher.new (strBytes "") = Hasher.finalize Hasher.new :=
  ⟨by decide, rfl, by decide, by decide⟩

/-- C1 (amended): `Page::new` fails with the "missing domain" error
exactly when the URL's host is absent or is not a domain name (an IP
address host also fails, because `url.domain()` is `None` for it); for
every URL whose host is a domain name it succeeds and returns a Page
whose identity is the hash of project id, domain bytes, and path bytes,
in that order. -/
theorem page_new_spec (pid : Int) (url : Url) :
    ((∃ e, Page.new pid url = Except.error e) ↔ ∀ d, url.host ≠ some (UrlHost.domain d)) ∧
    (∀ e, Page.new pid url = Except.error e → e = Error.Missing "domain") ∧
    (∀ d, url.host = some (UrlHost.domain d) →
      Page.new pid url = Except.ok
        { id := u64ToI64 (hashChunks ([intToU64 pid] ++ specChunks (strBytes d) ++
            specChunks (strBytes url.path)))
          project := pid, domain := d, path := url.path }) := by
  rcases hh : url.host with _ | h
  · refine ⟨?_, ?_, ?_⟩
    · simp [Page.new, Url.domain, hh]
    · intro e he
      simp [Page.new, Url.domain, hh] at he
      exact he.symm
    · intro d hd
      exact absurd hd (by simp)
  · rcases h with d0 | a
    · refine ⟨?_, ?_, ?_⟩
      · constructor
        · rintro ⟨e, he⟩
          simp [Page.new, Url.domain, hh] at he
        · intro hall
          exact absurd rfl (hall d0)
      · intro e he
        simp [Page.new, Url.domain, hh] at he
      · intro d hd
        have hd0 : d0 = d := by
          injection hd with hd2
          injection hd2
        subst hd0
        simp only [Page.new, Url.domain, hh, Hasher.finalize, hashChunks]
        congr 2
        simp [List.foldl_append, write_bytes_eq]
    · refine ⟨?_, ?_, ?_⟩
      · simp [Page.new, Url.domain, hh]
      · intro e he
        simp [Page.new, Url.domain, hh] at he
        exact he.symm
      · intro d hd
        exact absurd hd (by simp)

/-- Counterexample to C1 as stated: a URL whose host is an IP address has
a host component, yet `Page::new` fails with the "missing domain" error. -/
theorem page_new_host_counterexample :
    ipUrl0.host = some (UrlHost.ip "127.0.0.1") ∧
    Page.new 0 ipUrl0 = Except.error (Error.Missing "domain") :=
  ⟨rfl, rfl⟩

/-- Witness for C1's amended theorem at a concrete domain-host URL. -/
theorem page_new_spec_witness :
    Page.new 2 domUrl0 = Except.ok
      { id := u64ToI64 (hashChunks ([intToU64 2] ++ specChunks (strBytes "shop.example") ++
          specChunks (strBytes "/p")))
        project := 2, domain := "shop.example", path := "/p" } :=
  (page_new_spec 2 domUrl0).2.2 "shop.example" rfl

/-- C2: `Visitor::new` always succeeds (it is a total function of its
inputs) and its identity hashes exactly: project id as u64, region bytes
only if the timezone resolved, timezone bytes, language bytes, browser
bytes only if the browser family is non-empty, platform bytes only if
the OS family is non-empty, width as u64, height as u64 — where the
i32-to-u64 widening wraps negatives modulo `2 ^ 64` and absent optional
fields contribute no write call at all. -/
theorem visitor_new_spec (tzTable : String → Option String) (uaParse : String → String × String)
    (pid : Int) (v : PubVisitor) (ua : String)
    (h1 : -(2 ^ 31) ≤ v.screen.1) (h2 : v.screen.1 < 2 ^ 31)
    (h3 : -(2 ^ 31) ≤ v.screen.2) (h4 : v.screen.2 < 2 ^ 31) :
    (Visitor.new tzTable uaParse pid v ua).id =
      u64ToI64 (hashChunks (visitorChunks pid (tzTable v.tz) v.tz v.lang
        (uaParse ua).1 (uaParse ua).2 v.screen.1 v.screen.2)) := by
  have hw1 : intToU64 v.screen.1 = specWiden v.screen.1 :=
    intToU64_eq_specWiden _ (by omega) (by omega)
  have hw2 : intToU64 v.screen.2 = specWiden v.screen.2 :=
    intToU64_eq_specWiden _ (by omega) (by omega)
  simp only [Visitor.new, hashChunks, visitorChunks, Hasher.finalize]
  congr 1
  rcases hreg : tzTable v.tz with _ | r <;>
    by_cases hb : (uaParse ua).1 = "" <;>
    by_cases hp : (uaParse ua).2 = "" <;>
      simp [hreg, hb, hp, famChunks, optChunks, List.foldl_append, write_bytes_eq, hw1, hw2]

/-- Witness for C2 at a concrete input with a negative width. -/
theorem visitor_new_spec_witness :
    (Visitor.new tzT0 uaP0 7 pv0 "ua").id =
      u64ToI64 (hashChunks (visitorChunks 7 (tzT0 pv0.tz) pv0.tz pv0.lang
        (uaP0 "ua").1 (uaP0 "ua").2 pv0.screen.1 pv0.screen.2)) :=
  visitor_new_spec tzT0 uaP0 7 pv0 "ua" (by decide) (by decide) (by decide) (by decide)

/-- `getLast?` of a cons: the last element of the tail, or the head if
the tail is empty. -/
theorem getLast_cons_or {α : Type} (a : α) (l : List α) :
    (a :: l).getLast? = (l.getLast?).or (some a) := by
  cases l with
  | nil => rfl
  | cons b t =>
    rw [List.getLast?_cons_cons]
    rcases hx : (b :: t).getLast? with _ | x
    · exact absurd (List.getLast?_eq_none_iff.mp hx) (by simp)
    · rfl

/-- "Last occurrence wins" unfolds on a cons. -/
theorem lastUtmVal_cons (k : String) (kv : String × String) (ps : List (String × String)) :
    lastUtmVal k (kv :: ps) =
      (lastUtmVal k ps).or (if kv.1 = k then some kv.2 else none) := by
  unfold lastUtmVal
  by_cases h : kv.1 = k
  · simp only [List.filter_cons, h, decide_True, if_true, List.map_cons]
    rw [getLast_cons_or]
  · simp [List.filter_cons, h]

/-- If some pair with key `k` occurs, the last-occurrence value exists. -/
theorem lastUtmVal_ne_none (k : String) (ps : List (String × String)) (kv : String × String)
    (hmem : kv ∈ ps) (hk : kv.1 = k) : lastUtmVal k ps ≠ none := by
  unfold lastUtmVal
  rw [Ne, List.getLast?_eq_none_iff, List.map_eq_nil_iff]
  intro hfil
  have hin : kv ∈ ps.filter (fun kv => kv.1 = k) := List.mem_filter.mpr ⟨hmem, by simp [hk]⟩
  rw [hfil] at hin
  exact absurd hin (List.not_mem_nil kv)

/-- One `utmFold` step, field by field. -/
theorem utmFold_field (acc : UtmParam × Bool) (kv : String × String) :
    (utmFold acc kv).1.campaign = ((if kv.1 = "campaign" then some kv.2 else none).or acc.1.campaign) ∧
    (utmFold acc kv).1.content = ((if kv.1 = "content" then some kv.2 else none).or acc.1.content) ∧
    (utmFold acc kv).1.medium = ((if kv.1 = "medium" then some kv.2 else none).or acc.1.medium) ∧
    (utmFold acc kv).1.source = ((if kv.1 = "source" then some kv.2 else none).or acc.1.source) ∧
    (utmFold acc kv).1.term = ((if kv.1 = "term" then some kv.2 else none).or acc.1.term) ∧
    (utmFold acc kv).1.project = acc.1.project ∧
    (utmFold acc kv).1.id = acc.1.id ∧
    (utmFold acc kv).2 = (acc.2 || decide (kv.1 ∈ utmKeys)) := by
  simp only [utmFold]
  split_ifs with hc1 hc2 hc3 hc4 hc5 <;> simp_all [utmKeys]

/-- Invariant of the `UtmParam::new` query fold: each field holds the
last occurrence of its key (or the initial value), `project` and `id`
are untouched, and the flag records whether any recognized key occurred. -/
theorem utm_foldl_invariant (ps : List (String × String)) (acc : UtmParam × Bool) :
    (ps.foldl utmFold acc).1.campaign = ((lastUtmVal "campaign" ps).or acc.1.campaign) ∧
    (ps.foldl utmFold acc).1.content = ((lastUtmVal "content" ps).or acc.1.content) ∧
    (ps.foldl utmFold acc).1.medium = ((lastUtmVal "medium" ps).or acc.1.medium) ∧
    (ps.foldl utmFold acc).1.source = ((lastUtmVal "source" ps).or acc.1.source) ∧
    (ps.foldl utmFold acc).1.term = ((lastUtmVal "term" ps).or acc.1.term) ∧
    (ps.foldl utmFold acc).1.project = acc.1.project ∧
    (ps.foldl utmFold acc).1.id = acc.1.id ∧
    (ps.foldl utmFold acc).2 = (acc.2 || ps.any (fun kv => decide (kv.1 ∈ utmKeys))) := by
  induction ps generalizing acc with
  | nil => simp [lastUtmVal]
  | cons kv ps ih =>
    rw [List.foldl_cons]
    have hstep := utmFold_field acc kv
    have h := ih (utmFold acc kv)
    refine ⟨?_, ?_, ?_, ?_, ?_, ?_, ?_, ?_⟩
    · rw [h.1, hstep.1, lastUtmVal_cons, Option.or_assoc]
    · rw [h.2.1, hstep.2.1, lastUtmVal_cons, Option.or_assoc]
    · rw [h.2.2.1, hstep.2.2.1, lastUtmVal_cons, Option.or_assoc]
    · rw [h.2.2.2.1, hstep.2.2.2.1, lastUtmVal_cons, Option.or_assoc]
    · rw [h.2.2.2.2.1, hstep.2.2.2.2.1, lastUtmVal_cons, Option.or_assoc]
    · rw [h.2.2.2.2.2.1, hstep.2.2.2.2.2.1]
    · rw [h.2.2.2.2.2.2.1, hstep.2.2.2.2.2.2.1]
    · rw [h.2.2.2.2.2.2.2, hstep.2.2.2.2.2.2.2, List.any_cons, Bool.or_assoc]

/-- C3: `UtmParam::new` returns no entity exactly when none of the five
case-sensitive keys occurs in the query; otherwise it returns an entity
(never with all five fields absent) whose fields hold the last occurrence
of each key and whose identity hashes the project id then the present
fields in the fixed order campaign, content, medium, source, term. -/
theorem utm_new_spec (pid : Int) (url : Url) :
    (UtmParam.new pid url = none ↔ ∀ kv ∈ url.query, kv.1 ∉ utmKeys) ∧
    (∀ u, UtmParam.new pid url = some u →
      u.project = pid ∧
      u.campaign = lastUtmVal "campaign" url.query ∧
      u.content = lastUtmVal "content" url.query ∧
      u.medium = lastUtmVal "medium" url.query ∧
      u.source = lastUtmVal "source" url.query ∧
      u.term = lastUtmVal "term" url.query ∧
      ¬(u.campaign = none ∧ u.content = none ∧ u.medium = none ∧
        u.source = none ∧ u.term = none) ∧
      u.id = u64ToI64 (hashChunks ([intToU64 pid] ++ optChunks u.campaign ++
        optChunks u.content ++ optChunks u.medium ++ optChunks u.source ++
        optChunks u.term))) := by
  simp only [UtmParam.new]
  have hinv := utm_foldl_invariant url.query
    ({ id := 0, project := pid, campaign := none, content := none,
       medium := none, source := none, term := none }, false)
  simp only [Option.or_none, Bool.false_or] at hinv
  set r := url.query.foldl utmFold
    (({ id := 0, project := pid, campaign := none, content := none,
        medium := none, source := none, term := none } : UtmParam), false) with hrdef
  rcases hflag : r.2 with _ | _
  · have hany : url.query.any (fun kv => decide (kv.1 ∈ utmKeys)) = false := by
      rw [← hinv.2.2.2.2.2.2.2, hflag]
    rw [List.any_eq_false] at hany
    constructor
    · constructor
      · intro _ kv hkv
        have := hany kv hkv
        simpa using this
      · intro _
        simp [hflag]
    · intro u hu
      simp at hu
  · have hany : url.query.any (fun kv => decide (kv.1 ∈ utmKeys)) = true := by
      rw [← hinv.2.2.2.2.2.2.2, hflag]
    rw [List.any_eq_true] at hany
    obtain ⟨kv, hmem, hkey⟩ := hany
    rw [decide_eq_true_eq] at hkey
    constructor
    · constructor
      · intro hnone
        simp at hnone
      · intro hall
        exact absurd hkey (hall kv hmem)
    · intro u hu
      rw [if_pos rfl] at hu
      injection hu with hu
      subst hu
      refine ⟨hinv.2.2.2.2.2.1, hinv.1, hinv.2.1, hinv.2.2.1, hinv.2.2.2.1,
        hinv.2.2.2.2.1, ?_, ?_⟩
      · intro ⟨hc, hco, hm, hs, ht⟩
        simp only [utmKeys, List.mem_cons, List.not_mem_nil, or_false] at hkey
        rcases hkey with hk | hk | hk | hk | hk
        · exact lastUtmVal_ne_none "campaign" url.query kv hmem hk (hinv.1 ▸ hc)
        · exact lastUtmVal_ne_none "content" url.query kv hmem hk (hinv.2.1 ▸ hco)
        · exact lastUtmVal_ne_none "medium" url.query kv hmem hk (hinv.2.2.1 ▸ hm)
        · exact lastUtmVal_ne_none "source" url.query kv hmem hk (hinv.2.2.2.1 ▸ hs)
        · exact lastUtmVal_ne_none "term" url.query kv hmem hk (hinv.2.2.2.2.1 ▸ ht)
      · simp only [hashChunks, List.foldl_append, List.foldl_cons, List.foldl_nil,
          Hasher.finalize, writeOpt_eq]

/-- Witness for C3 at `utmUrl0` (duplicate `campaign` key, one
unrecognized key). -/
theorem utm_new_spec_witness :
    utmU0.project = 1 ∧
    utmU0.campaign = lastUtmVal "campaign" utmUrl0.query ∧
    utmU0.content = lastUtmVal "content" utmUrl0.query ∧
    utmU0.medium = lastUtmVal "medium" utmUrl0.query ∧
    utmU0.source = lastUtmVal "source" utmUrl0.query ∧
    utmU0.term = lastUtmVal "term" utmUrl0.query ∧
    ¬(utmU0.campaign = none ∧ utmU0.content = none ∧ utmU0.medium = none ∧
      utmU0.source = none ∧ utmU0.term = none) ∧
    utmU0.id = u64ToI64 (hashChunks ([intToU64 1] ++ optChunks utmU0.campaign ++
      optChunks utmU0.content ++ optChunks utmU0.medium ++ optChunks utmU0.source ++
      optChunks utmU0.term)) :=
  (utm_new_spec 1 utmUrl0).2 utmU0 (by decide)

/-- C4: `Referrer::new` returns no entity exactly when no referrer URL
was supplied, the referrer URL has no domain, or the referrer's domain
lower-cased equals the page's domain lower-cased; otherwise the entity's
domain is the lower-cased referrer domain and its identity hashes the
project id then the lower-cased domain bytes. -/
theorem referrer_new_spec (pid : Int) (r : Option Url) (host : String) :
    (Referrer.new pid r host = none ↔
      (r = none ∨ (∃ u, r = some u ∧ u.domain = none) ∨
        (∃ u d, r = some u ∧ u.domain = some d ∧ strLower d = strLower host))) ∧
    (∀ v, Referrer.new pid r host = some v →
      ∃ u d, r = some u ∧ u.domain = some d ∧ v.domain = strLower d ∧
        strLower d ≠ strLower host ∧ v.project = pid ∧
        v.id = u64ToI64 (hashChunks ([intToU64 pid] ++ specChunks (strBytes (strLower d))))) := by
  rcases r with _ | u
  · constructor
    · simp [Referrer.new]
    · intro v hv
      simp [Referrer.new] at hv
  · rcases hd : u.domain with _ | d
    · constructor
      · constructor
        · intro _
          exact Or.inr (Or.inl ⟨u, rfl, hd⟩)
        · intro _
          simp [Referrer.new, hd]
      · intro v hv
        simp [Referrer.new, hd] at hv
    · by_cases he : strLower d = strLower host
      · constructor
        · constructor
          · intro _
            exact Or.inr (Or.inr ⟨u, d, rfl, hd, he⟩)
          · intro _
            simp [Referrer.new, hd, he]
        · intro v hv
          simp [Referrer.new, hd, he] at hv
      · constructor
        · constructor
          · intro hnone
            simp [Referrer.new, hd, he] at hnone
          · rintro (h | ⟨u2, hu2, hdom⟩ | ⟨u2, d2, hu2, hdom, heq⟩)
            · exact absurd h (by simp)
            · injection hu2 with hu2
              subst hu2
              rw [hd] at hdom
              exact absurd hdom (by simp)
            · injection hu2 with hu2
              subst hu2
              rw [hd] at hdom
              injection hdom with hdom
              subst hdom
              exact absurd heq he
        · intro v hv
          simp only [Referrer.new, hd] at hv
          rw [if_neg he] at hv
          injection hv with hv
          subst hv
          exact ⟨u, d, rfl, hd, rfl, he, rfl, by
            simp [hashChunks, List.foldl_append, write_bytes_eq, Hasher.finalize]⟩

/-- Witness for C4: a case-insensitive self-referral is excluded, and a
foreign referrer yields the lower-cased-domain entity. -/
theorem referrer_new_spec_witness :
    Referrer.new 1 (some refSelf0) "example.com" = none ∧
    (∃ u d, some refOther0 = some u ∧ u.domain = some d ∧ refR0.domain = strLower d ∧
      strLower d ≠ strLower "example.com" ∧ refR0.project = 1 ∧
      refR0.id = u64ToI64 (hashChunks ([intToU64 1] ++ specChunks (strBytes (strLower d))))) :=
  ⟨(referrer_new_spec 1 (some refSelf0) "example.com").1.mpr
      (Or.inr (Or.inr ⟨refSelf0, "EXAMPLE.com", rfl, rfl, by decide⟩)),
    (referrer_new_spec 1 (some refOther0) "example.com").2 refR0 (by decide)⟩

/-- C5: each of the three handlers fails exactly when the session string
does not parse as a 64-bit integer or the page URL has no domain, and
every error is one of those two kinds (`ParseIntError` or
`Missing "domain"`); on error no `Visit`/`Event` value is returned. -/
theorem handlers_error_spec (tzTable : String → Option String)
    (uaParse : String → String × String) (pid : Int) (ua : String)
    (bv : PubVisit) (bx : PubExit) (be : PubEvent) :
    ((∃ e, handle_visit tzTable uaParse pid bv ua = Except.error e) ↔
      (parseI64 bv.session = none ∨ bv.page.url.domain = none)) ∧
    (∀ e, handle_visit tzTable uaParse pid bv ua = Except.error e →
      e = Error.ParseIntError ∨ e = Error.Missing "domain") ∧
    ((∃ e, handle_exit tzTable uaParse pid bx ua = Except.error e) ↔
      (parseI64 bx.session = none ∨ bx.page.url.domain = none)) ∧
    (∀ e, handle_exit tzTable uaParse pid bx ua = Except.error e →
      e = Error.ParseIntError ∨ e = Error.Missing "domain") ∧
    ((∃ e, handle_event tzTable uaParse pid be ua = Except.error e) ↔
      (parseI64 be.session = none ∨ be.page.url.domain = none)) ∧
    (∀ e, handle_event tzTable uaParse pid be ua = Except.error e →
      e = Error.ParseIntError ∨ e = Error.Missing "domain") := by
  refine ⟨?_, ?_, ?_, ?_, ?_, ?_⟩
  · rcases hp : parseI64 bv.session with _ | s
    · simp [handle_visit, hp]
    · rcases hd : bv.page.url.domain with _ | d
      · simp [handle_visit, hp, Page.new, hd]
      · simp [handle_visit, hp, Page.new, hd]
  · intro e he
    rcases hp : parseI64 bv.session with _ | s
    · simp [handle_visit, hp] at he
      exact Or.inl he.symm
    · rcases hd : bv.page.url.domain with _ | d
      · simp [handle_visit, hp, Page.new, hd] at he
        exact Or.inr he.symm
      · simp [handle_visit, hp, Page.new, hd] at he
  · rcases hp : parseI64 bx.session with _ | s
    · simp [handle_exit, hp]
    · rcases hd : bx.page.url.domain with _ | d
      · simp [handle_exit, hp, Page.new, hd]
      · simp [handle_exit, hp, Page.new, hd]
  · intro e he
    rcases hp : parseI64 bx.session with _ | s
    · simp [handle_exit, hp] at he
      exact Or.inl he.symm
    · rcases hd : bx.page.url.domain with _ | d
      · simp [handle_exit, hp, Page.new, hd] at he
        exact Or.inr he.symm
      · simp [handle_exit, hp, Page.new, hd] at he
  · rcases hp : parseI64 be.session with _ | s
    · simp [handle_event, hp]
    · rcases hd : be.page.url.domain with _ | d
      · simp [handle_event, hp, Page.new, hd]
      · simp [handle_event, hp, Page.new, hd]
  · intro e he
    rcases hp : parseI64 be.session with _ | s
    · simp [handle_event, hp] at he
      exact Or.inl he.symm
    · rcases hd : be.page.url.domain with _ | d
      · simp [handle_event, hp, Page.new, hd] at he
        exact Or.inr he.symm
      · simp [handle_event, hp, Page.new, hd] at he

/-- Witness for C5: a non-numeric session string makes all three
handlers fail. -/
theorem handlers_error_spec_witness :
    (∃ e, handle_visit tzT0 uaP0 1 pvBad0 "ua" = Except.error e) ∧
    (∃ e, handle_exit tzT0 uaP0 1 pxBad0 "ua" = Except.error e) ∧
    (∃ e, handle_event tzT0 uaP0 1 peBad0 "ua" = Except.error e) :=
  ⟨(handlers_error_spec tzT0 uaP0 1 "ua" pvBad0 pxBad0 peBad0).1.mpr (Or.inl (by decide)),
    (handlers_error_spec tzT0 uaP0 1 "ua" pvBad0 pxBad0 peBad0).2.2.1.mpr (Or.inl (by decide)),
    (handlers_error_spec tzT0 uaP0 1 "ua" pvBad0 pxBad0 peBad0).2.2.2.2.1.mpr
      (Or.inl (by decide))⟩

/-- `Page::new` reads only the host and the path of the URL. -/
theorem page_new_congr (pid : Int) (u1 u2 : Url) (hh : u1.host = u2.host)
    (hp : u1.path = u2.path) : Page.new pid u1 = Page.new pid u2 := by
  unfold Page.new Url.domain
  rw [hh, hp]

/-- C10: the `Event` produced by `handle_event` carries no UTM or
referrer data and is independent of the referrer URL and of the page
URL's query string: two bodies differing only there produce equal
results (timestamps are outside the pure model). -/
theorem handle_event_indep (tzTable : String → Option String)
    (uaParse : String → String × String) (pid : Int) (ua : String) (b1 b2 : PubEvent)
    (hs : b1.session = b2.session) (hv : b1.visitor = b2.visitor)
    (hn : b1.name = b2.name) (hd : b1.data = b2.data)
    (hh : b1.page.url.host = b2.page.url.host) (hp : b1.page.url.path = b2.page.url.path) :
    handle_event tzTable uaParse pid b1 ua = handle_event tzTable uaParse pid b2 ua := by
  unfold handle_event
  rw [hs, hv, hn, hd, page_new_congr pid b1.page.url b2.page.url hh hp]

/-- Witness for C10: `peA0` and `peB0` differ exactly in the referrer
and the query string. -/
theorem handle_event_indep_witness :
    handle_event tzT0 uaP0 1 peA0 "ua" = handle_event tzT0 uaP0 1 peB0 "ua" :=
  handle_event_indep tzT0 uaP0 1 "ua" peA0 peB0 rfl rfl rfl rfl rfl rfl
